import Mathlib

/-!
Verification development for the Uber receipt downloader
(src/uber-receipt-download.py).  The Python source is shallowly embedded:
page state is passed explicitly, fallible steps return `Except`, and the
browser-interaction sequence of `download_receipt` is recorded as an
explicit event trace.
-/

namespace UberRx

/-! ## Character and digit utilities -/

/-- Value of a digit-character string, `int("...")`-style:
`foldl (10*acc + digit)`. -/
def digitsVal (ds : List Char) : Nat :=
  ds.foldl (fun a c => 10 * a + (c.toNat - 48)) 0

/-- The decimal digit character for `n % 10`-sized values (0-9). -/
def digitChar (n : Nat) : Char :=
  match n with
  | 0 => '0' | 1 => '1' | 2 => '2' | 3 => '3' | 4 => '4'
  | 5 => '5' | 6 => '6' | 7 => '7' | 8 => '8' | _ => '9'

/-- Decimal rendering, fuel-indexed so that it is structurally
recursive (`natChars` below always supplies enough fuel). -/
def natCharsF : Nat → Nat → List Char
  | 0, _ => []
  | fuel + 1, n =>
    if n < 10 then [digitChar n]
    else natCharsF fuel (n / 10) ++ [digitChar (n % 10)]

/-- Decimal rendering of a natural number (Python `str(n)` for the
values used here). -/
def natChars (n : Nat) : List Char := natCharsF (n + 1) n

/-- Zero-padded two-digit rendering (`strftime` `%m` / `%d`). -/
def pad2 (n : Nat) : List Char :=
  if n < 10 then '0' :: natChars n else natChars n

/-- Four-digit year rendering (`strftime` `%Y`; all dates handled by the
claims have 1000 <= year <= 9999, where `%Y` is the plain decimal form). -/
def pad4 (n : Nat) : List Char :=
  if n < 10 then '0' :: '0' :: '0' :: natChars n
  else if n < 100 then '0' :: '0' :: natChars n
  else if n < 1000 then '0' :: natChars n
  else natChars n

/-- Case-sensitive literal match: strip the literal `lit` from the front
of `s`, returning the remainder on success. -/
def dropLit : List Char → List Char → Option (List Char)
  | [], s => some s
  | _ :: _, [] => none
  | p :: ps, c :: cs => if p = c then dropLit ps cs else none

/-- Does `nd` occur at the head of `hay`? -/
def leadsWith : List Char → List Char → Bool
  | [], _ => true
  | _ :: _, [] => false
  | a :: as, b :: bs => a = b && leadsWith as bs

/-- Python `needle in hay` substring membership. -/
def hasSub (nd : List Char) : List Char → Bool
  | [] => nd.isEmpty
  | c :: cs => leadsWith nd (c :: cs) || hasSub nd cs

/-- Python `text.lower()` on the character list. -/
def lowerStr (s : String) : List Char := s.toList.map Char.toLower

/-! ## Date parsing (lines 376-434 of the source)

The source searches the dialog's date text for
`(Jan|...|December) (\d+) (\d{4})` and, failing that,
`(Jan|...|December) (\d+)` with the current year substituted, then
validates the reassembled `"{month} {day} {year}"` via
`datetime.strptime` with `"%B %d %Y"` / `"%b %d %Y"` and renders the
result with `strftime("%Y-%m-%d")`. -/

/-- A parsed calendar date (`datetime` restricted to its date part). -/
structure PDate where
  year : Nat
  month : Nat
  day : Nat
deriving DecidableEq, Repr

/-- The `months` list of the source, in its order (abbreviations first,
then full names), paired with the month number each name denotes. -/
def monthTable : List (List Char × Nat) :=
  [(['J','a','n'], 1), (['F','e','b'], 2), (['M','a','r'], 3),
   (['A','p','r'], 4), (['M','a','y'], 5), (['J','u','n'], 6),
   (['J','u','l'], 7), (['A','u','g'], 8), (['S','e','p'], 9),
   (['O','c','t'], 10), (['N','o','v'], 11), (['D','e','c'], 12),
   (['J','a','n','u','a','r','y'], 1), (['F','e','b','r','u','a','r','y'], 2),
   (['M','a','r','c','h'], 3), (['A','p','r','i','l'], 4),
   (['M','a','y'], 5), (['J','u','n','e'], 6), (['J','u','l','y'], 7),
   (['A','u','g','u','s','t'], 8),
   (['S','e','p','t','e','m','b','e','r'], 9),
   (['O','c','t','o','b','e','r'], 10),
   (['N','o','v','e','m','b','e','r'], 11),
   (['D','e','c','e','m','b','e','r'], 12)]

/-- One attempt of the with-year pattern `({months}) (\d+) (\d{4})` at a
fixed start position: regex alternation tries the month names in listed
order, and an alternative succeeds only if the whole remaining pattern
matches behind it. -/
def p1At (s : List Char) : Option (Nat × List Char × List Char) :=
  monthTable.findSome? fun nm =>
    match dropLit nm.1 s with
    | none => none
    | some r =>
      match r with
      | ' ' :: r2 =>
        let ds := r2.takeWhile Char.isDigit
        if ds = [] then none
        else
          match r2.dropWhile Char.isDigit with
          | ' ' :: r4 =>
            let ys := r4.takeWhile Char.isDigit
            if 4 ≤ ys.length then some (nm.2, ds, ys.take 4) else none
          | _ => none
      | _ => none

/-- Search (re.search) for the with-year pattern: leftmost start position wins. -/
def p1Search : List Char → Option (Nat × List Char × List Char)
  | [] => none
  | c :: rest => (p1At (c :: rest)).orElse fun _ => p1Search rest

/-- One attempt of the year-less pattern `({months}) (\d+)` at a fixed
start position. -/
def p2At (s : List Char) : Option (Nat × List Char) :=
  monthTable.findSome? fun nm =>
    match dropLit nm.1 s with
    | none => none
    | some r =>
      match r with
      | ' ' :: r2 =>
        let ds := r2.takeWhile Char.isDigit
        if ds = [] then none else some (nm.2, ds)
      | _ => none

/-- Search (re.search) for the year-less pattern. -/
def p2Search : List Char → Option (Nat × List Char)
  | [] => none
  | c :: rest => (p2At (c :: rest)).orElse fun _ => p2Search rest

/-- Gregorian leap-year rule used by `datetime`. -/
def isLeap (y : Nat) : Bool :=
  (y % 4 = 0 && y % 100 ≠ 0) || y % 400 = 0

/-- Length of a month, as validated by the `datetime` constructor. -/
def daysInMonth (y m : Nat) : Nat :=
  if m = 2 then (if isLeap y then 29 else 28)
  else if m = 4 || m = 6 || m = 9 || m = 11 then 30
  else 31

/-- The strptime %d directive accepts exactly the day tokens
`3[01]|[12]\d|0[1-9]|[1-9]`: one or two digits with value 1-31
(excluding `"0"` and `"00"`). -/
def dayTokOk (ds : List Char) : Bool :=
  (ds.length = 1 || ds.length = 2) && 1 ≤ digitsVal ds && digitsVal ds ≤ 31

/-- Validation performed by
`datetime.strptime(f"{month} {day} {year}", "%B %d %Y" / "%b %d %Y")`:
the month name always matches one of the two formats (it came from the
month alternation), the day token must be in the `%d` language, and the
`datetime` constructor requires `1 <= year` and a day that exists in the
month. -/
def strptimeOk (y m : Nat) (ds : List Char) : Bool :=
  dayTokOk ds && 1 ≤ y && digitsVal ds ≤ daysInMonth y m

/-- The date-parsing block of `download_receipt`: try the with-year
pattern; if it is absent or `strptime` rejects its captures, try the
year-less pattern with the current year `cy` substituted.  Returns
`none` when no pattern yields a valid date (the caller then falls back
to the wall-clock date). -/
def parseDateText (cy : Nat) (text : List Char) : Option PDate :=
  let r1 : Option PDate :=
    match p1Search text with
    | some (m, ds, ys) =>
      if strptimeOk (digitsVal ys) m ds then
        some ⟨digitsVal ys, m, digitsVal ds⟩
      else none
    | none => none
  match r1 with
  | some d => some d
  | none =>
    match p2Search text with
    | some (m, ds) =>
      if strptimeOk cy m ds then some ⟨cy, m, digitsVal ds⟩ else none
    | none => none

/-- Rendering via strftime as YYYY-MM-DD. -/
def formatDate (d : PDate) : List Char :=
  pad4 d.year ++ '-' :: (pad2 d.month ++ '-' :: pad2 d.day)

/-- Rendering via strftime as YYYY-MM-DD, as a string. -/
def formatDateS (d : PDate) : String := String.mk (formatDate d)

/-- A valid calendar date in the `datetime` sense. -/
def validDate (d : PDate) : Bool :=
  1 ≤ d.year && d.year ≤ 9999 && 1 ≤ d.month && d.month ≤ 12 &&
  1 ≤ d.day && d.day ≤ daysInMonth d.year d.month

/-- The full month name of month `m` (used to render a date in the
"<Month> <Day> <Year>" shape the parser recognizes). -/
def monthName (m : Nat) : List Char :=
  match m with
  | 1 => ['J','a','n','u','a','r','y']
  | 2 => ['F','e','b','r','u','a','r','y']
  | 3 => ['M','a','r','c','h']
  | 4 => ['A','p','r','i','l']
  | 5 => ['M','a','y']
  | 6 => ['J','u','n','e']
  | 7 => ['J','u','l','y']
  | 8 => ['A','u','g','u','s','t']
  | 9 => ['S','e','p','t','e','m','b','e','r']
  | 10 => ['O','c','t','o','b','e','r']
  | 11 => ['N','o','v','e','m','b','e','r']
  | _ => ['D','e','c','e','m','b','e','r']

/-- A date rendered in the parser-recognized shape
"<Month> <Day> <Year>" (e.g. `"March 6 2025"`). -/
def renderLong (d : PDate) : List Char :=
  monthName d.month ++ ' ' :: (natChars d.day ++ ' ' :: natChars d.year)

/-! ## Cost extraction (`extract_cost`, lines 64-99)

Approach 1 scans the matched cost divs for one whose text contains `'$'`
and matches `\$(\d+\.\d+)`; approach 2 reads the price paragraph next to
the Tag icon and applies the same regex.  Every browser read may raise;
the enclosing `try` converts any raise into the sentinel `"unknown"`. -/

/-- Try to match `\d+\.\d+` (greedy digit runs) directly after a `'$'`,
returning the captured group. -/
def amountAfterDollar (s : List Char) : Option (List Char) :=
  let d1 := s.takeWhile Char.isDigit
  if d1 = [] then none
  else
    match s.dropWhile Char.isDigit with
    | '.' :: r2 =>
      let d2 := r2.takeWhile Char.isDigit
      if d2 = [] then none else some (d1 ++ '.' :: d2)
    | _ => none

/-- Search for the price regex (a dollar sign followed by digits, a
dot and digits): leftmost `'$'` whose tail
matches wins; on a failed tail the scan resumes at the next position. -/
def findDollar : List Char → Option (List Char)
  | [] => none
  | c :: rest =>
    if c = '$' then (amountAfterDollar rest).orElse fun _ => findDollar rest
    else findDollar rest

/-- The page state `extract_cost` reads: the texts of the matched cost
divs (each read may raise), whether the Tag icon and its sibling div are
present, and the sibling's `<p>` text when that element exists. -/
structure CostPage where
  costDivTexts : List (Except String String)
  tagIcon : Bool
  tagParent : Bool
  tagP : Option (Except String String)

/-- Approach 1: first cost div whose text contains `'$'` and matches the
price regex; a raising `inner_text` propagates. -/
def approach1 : List (Except String String) → Except String (Option String)
  | [] => Except.ok none
  | Except.error e :: _ => Except.error e
  | Except.ok t :: rest =>
    if t.toList.contains '$' then
      match findDollar t.toList with
      | some amt => Except.ok (some (String.mk amt))
      | none => approach1 rest
    else approach1 rest

/-- Approach 2: the `<p>` under the div following the Tag icon. -/
def approach2 (p : CostPage) : Except String (Option String) :=
  if p.tagIcon then
    if p.tagParent then
      match p.tagP with
      | none => Except.ok none
      | some (Except.error e) => Except.error e
      | some (Except.ok t) =>
        match findDollar t.toList with
        | some amt => Except.ok (some (String.mk amt))
        | none => Except.ok none
    else Except.ok none
  else Except.ok none

/-- The body of `extract_cost` before its `except` clause. -/
def extractCostE (p : CostPage) : Except String String :=
  match approach1 p.costDivTexts with
  | Except.error e => Except.error e
  | Except.ok (some amt) => Except.ok amt
  | Except.ok none =>
    match approach2 p with
    | Except.error e => Except.error e
    | Except.ok (some amt) => Except.ok amt
    | Except.ok none => Except.ok "unknown"

/-- Model of `extract_cost`: any raise inside the body is caught and mapped to
the sentinel `"unknown"`. -/
def extract_cost (p : CostPage) : String :=
  match extractCostE p with
  | Except.ok s => s
  | Except.error _ => "unknown"

/-! ## The per-trip flow (`download_receipt`, lines 282-512)

The interaction sequence is recorded as an event trace; the page's
behaviour for one trip is an explicit `TripEnv`. -/

/-- Observable browser interactions of one `download_receipt` run. -/
inductive Ev where
  | navigate (url : String)
  | clickView (sel : String)
  | clickButtonText (text : String)
  | armListener
  | clickDownload (sel : String)
  | extractCostEv
  | extractDateEv
  | mkdir (dir : String)
  | save (path : String)
  | clickClose (sel : String)
  | escape
deriving DecidableEq, Repr

/-- Configuration owned by the downloader object. -/
structure Config where
  downloadDir : String

/-- The page/session behaviour for one trip. -/
structure TripEnv where
  navOk : Bool
  viewVisible : String → Bool
  buttonTexts : List String
  pdfVisible : String → Bool
  downloadFires : Bool
  costPage : CostPage
  dateText : Option String
  currentYear : Nat
  currentDate : String
  bodyText : String
  closeVisible : String → Bool

/-- The ranked "View Receipt" selectors (line 297). -/
def view_receipt_selectors : List String :=
  ["button[data-tracking-name=\"view-receipt-link\"]",
   ":text(\"View Receipt\")",
   "button:has-text(\"View Receipt\")",
   "[data-test=\"view-receipt-button\"]"]

/-- The ranked "Download PDF" selectors (line 340). -/
def download_pdf_selectors : List String :=
  [":text(\"Download PDF\")",
   "text=\"Download PDF\"",
   "button:has-text(\"Download PDF\")",
   "[data-test=\"download-pdf-button\"]"]

/-- The ranked close-control selectors (line 462). -/
def close_button_selectors : List String :=
  ["button[aria-label=\"Close\"]",
   ".ReactModalPortal button",
   ":text(\"×\")"]

/-- First selector of the list that `is_visible` reports visible. -/
def firstVisible (vis : String → Bool) : List String → Option String
  | [] => none
  | s :: rest => if vis s then some s else firstVisible vis rest

/-- The "View Receipt" phase (lines 304-333): ranked selectors first,
then the last-resort scan over every button's text for
"receipt"/"view" (case-insensitive). -/
def viewPhase (env : TripEnv) : Bool × List Ev :=
  match firstVisible env.viewVisible view_receipt_selectors with
  | some sel => (true, [Ev.clickView sel])
  | none =>
    match env.buttonTexts.find? (fun t =>
        hasSub "receipt".toList (lowerStr t) ||
        hasSub "view".toList (lowerStr t)) with
    | some t => (true, [Ev.clickButtonText t])
    | none => (false, [])

/-- The last-resort full-page text scan of lines 484-503. -/
def textScanFound (body : String) : Bool :=
  hasSub "download pdf".toList (lowerStr body) ||
  (hasSub "download".toList (lowerStr body) &&
   hasSub "pdf".toList (lowerStr body))

/-- Dialog dismissal (lines 460-478): first visible close control, else
the Escape key. -/
def closeEvs (env : TripEnv) : List Ev :=
  match firstVisible env.closeVisible close_button_selectors with
  | some s => [Ev.clickClose s]
  | none => [Ev.escape]

/-- The date string used in the filename (lines 371-439): the dialog's
date element text fed to the parser, falling back to the wall-clock
date when the element is absent, empty, unreadable, or unparseable. -/
def extractDateStr (env : TripEnv) : String :=
  match env.dateText with
  | none => env.currentDate
  | some t =>
    if t = "" then env.currentDate
    else
      match parseDateText env.currentYear t.toList with
      | some d => formatDateS d
      | none => env.currentDate

/-- Line 442: `f"{date_formatted}-{cost}USD-{trip_id}.pdf"`. -/
def mkFilename (dateS cost trip : String) : String :=
  dateS ++ "-" ++ cost ++ "USD-" ++ trip ++ ".pdf"

/-- The "Download PDF" phase (lines 339-508).  With a visible ranked
selector the listener is armed (`expect_download` entry) and the click
issued inside it; if the download event arrives, cost and date are read,
the directory ensured and the file saved, then the dialog dismissed; on
timeout the dialog is dismissed and `None` returned.  Without a visible
selector the last-resort text scan either quietly ends the function
(returning `None`) or raises. -/
def pdfPhase (cfg : Config) (env : TripEnv) (trip : String) :
    Except String (Option String) × List Ev :=
  match firstVisible env.pdfVisible download_pdf_selectors with
  | some sel =>
    if env.downloadFires then
      let cost := extract_cost env.costPage
      let dateS := extractDateStr env
      let path := cfg.downloadDir ++ "/" ++ mkFilename dateS cost trip
      (Except.ok (some path),
       Ev.armListener :: Ev.clickDownload sel :: Ev.extractCostEv ::
         Ev.extractDateEv :: Ev.mkdir cfg.downloadDir :: Ev.save path ::
         closeEvs env)
    else
      (Except.ok none,
       Ev.armListener :: Ev.clickDownload sel :: closeEvs env)
  | none =>
    if textScanFound env.bodyText then (Except.ok none, [])
    else (Except.error "Could not find Download PDF button", [])

/-- The trip detail URL built at line 292. -/
def tripUrl (trip : String) : String :=
  "https://riders.uber.com/trips/" ++ trip

/-- The body of `download_receipt` before its per-trip `except` clause. -/
def downloadReceiptE (cfg : Config) (env : TripEnv) (trip : String) :
    Except String (Option String) × List Ev :=
  if env.navOk then
    match viewPhase env with
    | (true, ev1) =>
      let r2 := pdfPhase cfg env trip
      (r2.1, Ev.navigate (tripUrl trip) :: ev1 ++ r2.2)
    | (false, _) =>
      (Except.error "Could not find or click View Receipt button",
       [Ev.navigate (tripUrl trip)])
  else (Except.error "NavigationError", [Ev.navigate (tripUrl trip)])

/-- Model of `download_receipt`: the per-trip boundary catches every raise and
returns `None` for the trip (lines 510-512). -/
def download_receipt (cfg : Config) (env : TripEnv) (trip : String) :
    Option String × List Ev :=
  match downloadReceiptE cfg env trip with
  | (Except.ok r, evs) => (r, evs)
  | (Except.error _, evs) => (none, evs)

/-! ## Trip-id deduplication and the batch loop -/

/-- Order-preserving first-occurrence deduplication
(lines 271-273: `seen` set plus comprehension). -/
def dedupAux (seen : List String) : List String → List String
  | [] => []
  | x :: xs =>
    if x ∈ seen then dedupAux seen xs
    else x :: dedupAux (x :: seen) xs

/-- The `unique_trip_ids` computation of `fetch_trip_ids`. -/
def dedup (l : List String) : List String := dedupAux [] l

/-- Model of `download_multiple_receipts` (lines 514-539): an explicitly provided
non-empty trip-id list is used as given; an absent/empty one is replaced
by the fetched list, which `fetch_trip_ids` deduplicates.  `scraped`
stands for the date-filtered ids scraped from the trips page. -/
def download_multiple_receipts (cfg : Config) (envOf : String → TripEnv)
    (scraped : List String) (trips : List String) :
    List (String × Option String) :=
  let ts := if trips.isEmpty then dedup scraped else trips
  ts.map fun t => (t, (download_receipt cfg (envOf t) t).1)

/-! ## Concrete fixtures used by witnesses and counterexamples -/

/-- A sample configuration. -/
def cfg0 : Config := ⟨"out"⟩

/-- A page behaviour on which every step of the flow succeeds. -/
def envG : TripEnv where
  navOk := true
  viewVisible := fun s => s == "button[data-tracking-name=\"view-receipt-link\"]"
  buttonTexts := []
  pdfVisible := fun s => s == ":text(\"Download PDF\")"
  downloadFires := true
  costPage := ⟨[Except.ok "Total $24.06"], false, false, none⟩
  dateText := some "2:28 PM, Thursday March 6 2025"
  currentYear := 2025
  currentDate := "2025-12-31"
  bodyText := ""
  closeVisible := fun _ => false

/-- Variant of `envG` with a cost section from which no amount can be read. -/
def envU : TripEnv := { envG with costPage := ⟨[Except.ok "no price here"], false, false, none⟩ }

/-- A page on which no ranked "Download PDF" selector is visible but the
page text mentions the download. -/
def env9 : TripEnv :=
  { envG with
    pdfVisible := fun _ => false
    bodyText := "You can Download PDF from the receipt dialog" }

/-- Every trip behaves like `envG`. -/
def envOf0 : String → TripEnv := fun _ => envG

end UberRx

namespace UberRx

/-! ## Digit-rendering lemmas -/

theorem digitChar_isDigit (d : Nat) : (digitChar d).isDigit = true := by
  unfold digitChar
  split <;> decide

theorem digitChar_toNat (d : Nat) (h : d < 10) : (digitChar d).toNat = 48 + d := by
  interval_cases d <;> rfl

theorem natCharsF_agree (n : Nat) :
    ∀ f1 f2, n < f1 → n < f2 → natCharsF f1 n = natCharsF f2 n := by
  induction n using Nat.strong_induction_on with
  | _ n ih =>
    intro f1 f2 h1 h2
    match f1, f2 with
    | g1 + 1, g2 + 1 =>
      by_cases h : n < 10
      · simp [natCharsF, h]
      · simp only [natCharsF, if_neg h]
        congr 1
        exact ih (n / 10) (by omega) g1 g2 (by omega) (by omega)

theorem natChars_eq (n : Nat) :
    natChars n =
      if n < 10 then [digitChar n]
      else natChars (n / 10) ++ [digitChar (n % 10)] := by
  unfold natChars
  by_cases h : n < 10
  · simp [natCharsF, h]
  · simp only [natCharsF, if_neg h]
    congr 1
    exact natCharsF_agree (n / 10) n (n / 10 + 1) (by omega) (by omega)

theorem natChars_digits (n : Nat) : ∀ c ∈ natChars n, c.isDigit = true := by
  induction n using Nat.strong_induction_on with
  | _ n ih =>
    rw [natChars_eq]
    by_cases h : n < 10
    · simp only [if_pos h, List.mem_singleton]
      rintro c rfl
      exact digitChar_isDigit n
    · simp only [if_neg h, List.mem_append, List.mem_singleton]
      rintro c (hc | rfl)
      · exact ih (n / 10) (by omega) c hc
      · exact digitChar_isDigit _

theorem digitsVal_snoc (xs : List Char) (c : Char) :
    digitsVal (xs ++ [c]) = 10 * digitsVal xs + (c.toNat - 48) := by
  simp [digitsVal, List.foldl_append]

theorem digitsVal_natChars (n : Nat) : digitsVal (natChars n) = n := by
  induction n using Nat.strong_induction_on with
  | _ n ih =>
    rw [natChars_eq]
    by_cases h : n < 10
    · rw [if_pos h]
      simp [digitsVal, digitChar_toNat n h]
    · rw [if_neg h, digitsVal_snoc, ih (n / 10) (by omega),
        digitChar_toNat (n % 10) (by omega)]
      omega

theorem natChars_ne_nil (n : Nat) : natChars n ≠ [] := by
  rw [natChars_eq]; split <;> simp

theorem natChars_len_one (n : Nat) (h : n < 10) : (natChars n).length = 1 := by
  rw [natChars_eq, if_pos h]; rfl

theorem natChars_len_two (n : Nat) (h1 : 10 ≤ n) (h2 : n ≤ 99) :
    (natChars n).length = 2 := by
  rw [natChars_eq, if_neg (by omega), List.length_append,
    natChars_len_one (n / 10) (by omega)]
  rfl

theorem natChars_len_three (n : Nat) (h1 : 100 ≤ n) (h2 : n ≤ 999) :
    (natChars n).length = 3 := by
  rw [natChars_eq, if_neg (by omega), List.length_append,
    natChars_len_two (n / 10) (by omega) (by omega)]
  rfl

theorem natChars_len_four (n : Nat) (h1 : 1000 ≤ n) (h2 : n ≤ 9999) :
    (natChars n).length = 4 := by
  rw [natChars_eq, if_neg (by omega), List.length_append,
    natChars_len_three (n / 10) (by omega) (by omega)]
  rfl

/-! ## takeWhile and dropWhile over known digit runs -/

theorem takeWhile_append_stop (p : Char → Bool) (xs : List Char) (y : Char)
    (ys : List Char) (hx : ∀ x ∈ xs, p x = true) (hy : p y = false) :
    (xs ++ y :: ys).takeWhile p = xs := by
  induction xs with
  | nil => simp [List.takeWhile_cons, hy]
  | cons a as ihx =>
    have ha : p a = true := hx a (by simp)
    simp [List.takeWhile_cons, ha,
      ihx fun x hmem => hx x (by simp [hmem])]

theorem dropWhile_append_stop (p : Char → Bool) (xs : List Char) (y : Char)
    (ys : List Char) (hx : ∀ x ∈ xs, p x = true) (hy : p y = false) :
    (xs ++ y :: ys).dropWhile p = y :: ys := by
  induction xs with
  | nil => simp [List.dropWhile_cons, hy]
  | cons a as ihx =>
    have ha : p a = true := hx a (by simp)
    simp [List.dropWhile_cons, ha,
      ihx fun x hmem => hx x (by simp [hmem])]

theorem takeWhile_all (p : Char → Bool) (xs : List Char)
    (hx : ∀ x ∈ xs, p x = true) : xs.takeWhile p = xs := by
  induction xs with
  | nil => rfl
  | cons a as ihx =>
    have ha : p a = true := hx a (by simp)
    simp [List.takeWhile_cons, ha,
      ihx fun x hmem => hx x (by simp [hmem])]

/-! ## The with-year pattern on a "<Month> <Day> <Year>" rendering -/

theorem p1At_render (m : Nat) (hm1 : 1 ≤ m) (hm2 : m ≤ 12) (ds ys : List Char)
    (hds : ds ≠ []) (hdsd : ∀ c ∈ ds, c.isDigit = true)
    (hys4 : ys.length = 4) (hysd : ∀ c ∈ ys, c.isDigit = true) :
    p1At (monthName m ++ ' ' :: (ds ++ ' ' :: ys)) = some (m, ds, ys) := by
  have htake := takeWhile_append_stop Char.isDigit ds ' ' ys hdsd (by decide)
  have hdrop := dropWhile_append_stop Char.isDigit ds ' ' ys hdsd (by decide)
  have htys : ys.takeWhile Char.isDigit = ys := takeWhile_all Char.isDigit ys hysd
  have htk4 : ys.take 4 = ys := by rw [← hys4]; exact List.take_length ys
  interval_cases m <;>
    simp [monthName, p1At, monthTable, List.findSome?, dropLit, htake, hdrop,
      htys, hys4, htk4, hds]

theorem p1Search_of_at (s : List Char) (v : Nat × List Char × List Char)
    (h : p1At s = some v) : p1Search s = some v := by
  cases s with
  | nil => simp [p1At, monthTable, List.findSome?, dropLit] at h
  | cons c rest => simp [p1Search, h, Option.orElse]

theorem daysInMonth_le (y m : Nat) : daysInMonth y m ≤ 31 := by
  unfold daysInMonth
  split
  · split <;> omega
  · split <;> omega

theorem parse_renderLong (cy : Nat) (d : PDate) (hv : validDate d = true)
    (hy : 1000 ≤ d.year) : parseDateText cy (renderLong d) = some d := by
  obtain ⟨y, m, day⟩ := d
  simp only [validDate, Bool.and_eq_true, decide_eq_true_eq] at hv
  obtain ⟨⟨⟨⟨⟨hy1, hy2⟩, hm1⟩, hm2⟩, hd1⟩, hd2⟩ := hv
  have hds := natChars_digits day
  have hysd := natChars_digits y
  have hys4 : (natChars y).length = 4 := natChars_len_four y hy hy2
  have hat := p1At_render m hm1 hm2 (natChars day) (natChars y)
    (natChars_ne_nil day) hds hys4 hysd
  have hsearch := p1Search_of_at _ _ hat
  have hvald : digitsVal (natChars day) = day := digitsVal_natChars day
  have hvaly : digitsVal (natChars y) = y := digitsVal_natChars y
  have hlen : (natChars day).length = 1 ∨ (natChars day).length = 2 := by
    by_cases h : day < 10
    · exact Or.inl (natChars_len_one day h)
    · exact Or.inr (natChars_len_two day (by omega)
        (by have := daysInMonth_le y m; omega))
  have h31 : day ≤ 31 := le_trans hd2 (daysInMonth_le y m)
  have hok : strptimeOk y m (natChars day) = true := by
    rcases hlen with h | h <;>
      (simp only [strptimeOk, dayTokOk, hvald, h, Bool.and_eq_true,
        Bool.or_eq_true, decide_eq_true_eq]
       simp [hd1, h31, hy1, hd2])
  simp only [parseDateText, renderLong, hsearch, hvald, hvaly, hok, if_true]

/-! ## Deduplication lemmas -/

theorem mem_dedupAux (l : List String) :
    ∀ (seen : List String) (a : String),
      a ∈ dedupAux seen l ↔ a ∈ l ∧ a ∉ seen := by
  induction l with
  | nil => simp [dedupAux]
  | cons x xs ih =>
    intro seen a
    by_cases hx : x ∈ seen
    · rw [dedupAux, if_pos hx, ih]
      simp only [List.mem_cons]
      constructor
      · exact fun ⟨h1, h2⟩ => ⟨Or.inr h1, h2⟩
      · rintro ⟨h1 | h1, h2⟩
        · exact absurd (h1 ▸ hx) h2
        · exact ⟨h1, h2⟩
    · rw [dedupAux, if_neg hx]
      simp only [List.mem_cons, ih (x :: seen) a, List.mem_cons]
      by_cases hax : a = x
      · subst hax
        simp [hx]
      · simp [hax]

theorem dedupAux_nodup (l : List String) :
    ∀ seen : List String, (dedupAux seen l).Nodup := by
  induction l with
  | nil => intro seen; simp [dedupAux]
  | cons x xs ih =>
    intro seen
    by_cases hx : x ∈ seen
    · rw [dedupAux, if_pos hx]; exact ih seen
    · rw [dedupAux, if_neg hx, List.nodup_cons]
      refine ⟨fun hmem => ?_, ih (x :: seen)⟩
      exact ((mem_dedupAux xs (x :: seen) x).1 hmem).2 (by simp)

theorem dedupAux_sublist (l : List String) :
    ∀ seen : List String, (dedupAux seen l).Sublist l := by
  induction l with
  | nil => intro seen; simp [dedupAux]
  | cons x xs ih =>
    intro seen
    by_cases hx : x ∈ seen
    · rw [dedupAux, if_pos hx]
      exact (ih seen).trans (List.sublist_cons_self x xs)
    · rw [dedupAux, if_neg hx]
      exact List.Sublist.cons₂ x (ih (x :: seen))

/-! ## Trace-shape lemmas for the flow -/

theorem download_receipt_trace (cfg : Config) (env : TripEnv) (trip : String) :
    (download_receipt cfg env trip).2 = (downloadReceiptE cfg env trip).2 := by
  unfold download_receipt
  cases hEq : downloadReceiptE cfg env trip with
  | mk r evs => cases r <;> simp

theorem viewPhase_true_shape (env : TripEnv) (ev1 : List Ev)
    (h : viewPhase env = (true, ev1)) :
    ∃ e, ev1 = [e] ∧
      ((∃ s, e = Ev.clickView s) ∨ ∃ t, e = Ev.clickButtonText t) := by
  unfold viewPhase at h
  cases hf : firstVisible env.viewVisible view_receipt_selectors with
  | some sel =>
    rw [hf] at h
    exact ⟨Ev.clickView sel, by simp_all, Or.inl ⟨sel, rfl⟩⟩
  | none =>
    rw [hf] at h
    cases hfind : env.buttonTexts.find? (fun t =>
        hasSub "receipt".toList (lowerStr t) ||
        hasSub "view".toList (lowerStr t)) with
    | some t =>
      rw [hfind] at h
      exact ⟨Ev.clickButtonText t, by simp_all, Or.inr ⟨t, rfl⟩⟩
    | none => rw [hfind] at h; simp at h

theorem closeEvs_not_click (env : TripEnv) :
    ∀ e ∈ closeEvs env, (∀ s, e ≠ Ev.clickDownload s) ∧ ∀ p, e ≠ Ev.save p := by
  unfold closeEvs
  cases firstVisible env.closeVisible close_button_selectors <;> simp

theorem armed_before_shape (a b : Ev) (sel' : String) (rest : List Ev)
    (ha : ∀ s, a ≠ Ev.clickDownload s) (hb : ∀ s, b ≠ Ev.clickDownload s)
    (hrest : ∀ e ∈ rest, ∀ s, e ≠ Ev.clickDownload s)
    (n : Nat) (sel : String)
    (h : (a :: b :: Ev.armListener :: Ev.clickDownload sel' :: rest).get? n =
      some (Ev.clickDownload sel)) :
    ∃ m, m < n ∧
      (a :: b :: Ev.armListener :: Ev.clickDownload sel' :: rest).get? m =
        some Ev.armListener := by
  match n with
  | 0 =>
    simp only [List.get?] at h
    exact absurd (Option.some.inj h) (ha sel)
  | 1 =>
    simp only [List.get?] at h
    exact absurd (Option.some.inj h) (hb sel)
  | 2 =>
    simp only [List.get?] at h
    exact absurd (Option.some.inj h) (by simp)
  | 3 => exact ⟨2, by omega, rfl⟩
  | n + 4 =>
    simp only [List.get?] at h
    exact absurd rfl (hrest _ (List.get?_mem h) sel)

theorem no_click_vacuous (evs : List Ev)
    (hall : ∀ e ∈ evs, ∀ s, e ≠ Ev.clickDownload s)
    (n : Nat) (sel : String)
    (h : evs.get? n = some (Ev.clickDownload sel)) :
    ∃ m, m < n ∧ evs.get? m = some Ev.armListener :=
  absurd rfl (hall _ (List.get?_mem h) sel)

theorem map_fst_pair {α β : Type} (f : α → β) (l : List α) :
    (l.map fun t => (t, f t)).map Prod.fst = l := by
  induction l with
  | nil => rfl
  | cons a l ih => simp [ih]

theorem download_receipt_nav_fail (cfg : Config) (env : TripEnv) (trip : String)
    (hnav : env.navOk = false) :
    download_receipt cfg env trip = (none, [Ev.navigate (tripUrl trip)]) := by
  unfold download_receipt downloadReceiptE
  simp [hnav]

theorem download_receipt_view_fail (cfg : Config) (env : TripEnv) (trip : String)
    (ev1 : List Ev) (hnav : env.navOk = true)
    (hview : viewPhase env = (false, ev1)) :
    download_receipt cfg env trip = (none, [Ev.navigate (tripUrl trip)]) := by
  unfold download_receipt downloadReceiptE
  simp [hnav, hview]

theorem download_receipt_no_pdf (cfg : Config) (env : TripEnv) (trip : String)
    (ev1 : List Ev) (hnav : env.navOk = true)
    (hview : viewPhase env = (true, ev1))
    (hpv : firstVisible env.pdfVisible download_pdf_selectors = none) :
    download_receipt cfg env trip =
      (none, Ev.navigate (tripUrl trip) :: ev1) := by
  unfold download_receipt downloadReceiptE pdfPhase
  cases hts : textScanFound env.bodyText <;> simp [hnav, hview, hpv, hts]

theorem download_receipt_timeout (cfg : Config) (env : TripEnv) (trip : String)
    (sel : String) (ev1 : List Ev) (hnav : env.navOk = true)
    (hview : viewPhase env = (true, ev1))
    (hpv : firstVisible env.pdfVisible download_pdf_selectors = some sel)
    (hf : env.downloadFires = false) :
    download_receipt cfg env trip =
      (none, Ev.navigate (tripUrl trip) :: ev1 ++
        Ev.armListener :: Ev.clickDownload sel :: closeEvs env) := by
  unfold download_receipt downloadReceiptE pdfPhase
  simp [hnav, hview, hpv, hf]

theorem download_receipt_success_shape (cfg : Config) (env : TripEnv)
    (trip : String) (sel : String) (ev1 : List Ev)
    (hnav : env.navOk = true)
    (hview : viewPhase env = (true, ev1))
    (hpv : firstVisible env.pdfVisible download_pdf_selectors = some sel)
    (hf : env.downloadFires = true) :
    download_receipt cfg env trip =
      (some (cfg.downloadDir ++ "/" ++
        mkFilename (extractDateStr env) (extract_cost env.costPage) trip),
       Ev.navigate (tripUrl trip) :: ev1 ++
         Ev.armListener :: Ev.clickDownload sel :: Ev.extractCostEv ::
         Ev.extractDateEv :: Ev.mkdir cfg.downloadDir ::
         Ev.save (cfg.downloadDir ++ "/" ++
           mkFilename (extractDateStr env) (extract_cost env.costPage) trip) ::
         closeEvs env) := by
  unfold download_receipt downloadReceiptE pdfPhase
  simp [hnav, hview, hpv, hf]

/-! ## Claim theorems -/

/-- C7: for every fetched sequence of trip ids, deduplication keeps the
first occurrence of each id and preserves original discovery order:
given ids `[x, y, x, z]` the deduplicated sequence is `[x, y, z]`, the
result is duplicate-free, is an order-preserving subsequence of the
input, and keeps exactly the ids of the input. -/
theorem dedup_first_occurrence_order :
    (∀ x y z : String, x ≠ y → x ≠ z → y ≠ z →
      dedup [x, y, x, z] = [x, y, z]) ∧
    ∀ l : List String,
      (dedup l).Nodup ∧ (dedup l).Sublist l ∧ ∀ a, a ∈ dedup l ↔ a ∈ l := by
  constructor
  · intro x y z hxy hxz hyz
    simp [dedup, dedupAux, Ne.symm hxy, Ne.symm hxz, Ne.symm hyz]
  · intro l
    exact ⟨dedupAux_nodup l [], dedupAux_sublist l [],
      fun a => by simp [dedup, mem_dedupAux]⟩

/-- Witness for C7 at the concrete input `["a", "b", "a", "c"]`. -/
theorem dedup_first_occurrence_order_witness :
    dedup ["a", "b", "a", "c"] = ["a", "b", "c"] :=
  dedup_first_occurrence_order.1 "a" "b" "c" (by decide) (by decide) (by decide)

/-- C8 counterexample: the round trip as literally claimed fails.
`format` renders `YYYY-MM-DD`, a shape the parser (which searches for a
month name) does not recognize, so `parse(format(d))` is `none` for the
valid date 2025-03-06 rather than re-producing the date. -/
theorem date_roundtrip_counterexample :
    validDate ⟨2025, 3, 6⟩ = true ∧
    parseDateText 2025 (formatDate ⟨2025, 3, 6⟩) = none ∧
    (parseDateText 2025 (formatDate ⟨2025, 3, 6⟩)).map formatDateS ≠
      some (formatDateS ⟨2025, 3, 6⟩) := by decide

/-- C8 (amended): the round trip holds when the inner rendering is the
parser-recognized "<Month> <Day> <Year>" text: for every valid calendar
date `d` whose rendered text states a four-digit year explicitly,
`format(parse(render(d))) = format(d)`, with `format` rendering
`YYYY-MM-DD` zero-padded, for any current year `cy`. -/
theorem date_roundtrip_via_month_text (cy : Nat) (d : PDate)
    (hv : validDate d = true) (hy : 1000 ≤ d.year) :
    (parseDateText cy (renderLong d)).map formatDateS =
      some (formatDateS d) := by
  rw [parse_renderLong cy d hv hy]
  rfl

/-- Witness for C8 (amended) at the concrete date 2025-03-06. -/
theorem date_roundtrip_via_month_text_witness :
    (parseDateText 2024 (renderLong ⟨2025, 3, 6⟩)).map formatDateS =
      some (formatDateS ⟨2025, 3, 6⟩) :=
  date_roundtrip_via_month_text 2024 ⟨2025, 3, 6⟩ (by decide) (by decide)

/-- C3 counterexample: on the page text `"3.20 ... 24.06"` — two
two-decimal numbers, no currency symbol, no Tag label — `extract_cost`
returns the sentinel `"unknown"`, not the second number `"24.06"`:
the code has no positional fallback heuristic. -/
theorem positional_fallback_counterexample :
    extract_cost ⟨[Except.ok "3.20 ... 24.06"], false, false, none⟩ =
      "unknown" ∧
    extract_cost ⟨[Except.ok "3.20 ... 24.06"], false, false, none⟩ ≠
      "24.06" := by decide

/-- C3 (amended): `extract_cost` applies no positional fallback after
the dollar-anchored heuristics fail: on any page whose cost-div texts
contain no currency symbol and which has no Tag icon — including pages
whose text contains two or more two-decimal numeric substrings — it
returns the sentinel `"unknown"`, never the second numeric substring. -/
theorem no_positional_fallback (ts : List String) (tpar : Bool)
    (tp : Option (Except String String))
    (hnd : ∀ t ∈ ts, t.toList.contains '$' = false) :
    extract_cost ⟨ts.map Except.ok, false, tpar, tp⟩ = "unknown" := by
  have h1 : approach1 (ts.map Except.ok) = Except.ok none := by
    induction ts with
    | nil => rfl
    | cons t ts ih =>
      have ht : t.toList.contains '$' = false := hnd t (by simp)
      simp only [List.map_cons, approach1, ht, Bool.false_eq_true, if_false]
      exact ih fun t' hmem => hnd t' (by simp [hmem])
  simp [extract_cost, extractCostE, h1, approach2]

/-- Witness for C3 (amended) on a page text holding three two-decimal
numbers and no dollar sign. -/
theorem no_positional_fallback_witness :
    extract_cost ⟨List.map Except.ok ["1.50 and 2.75 and 3.99"],
      false, false, none⟩ = "unknown" :=
  no_positional_fallback ["1.50 and 2.75 and 3.99"] false none (by decide)

/-- C1: for every non-empty provided list of trip ids, the batch
produces one `(tripId, artifactPathOrNull)` pair per input trip in input
order, each pair determined only by that trip's own page behaviour, and
any raise inside one trip's download is caught at the per-trip boundary
and recorded as `none` for that trip only — no later trip is dropped. -/
theorem batch_isolates_per_trip_failures (cfg : Config)
    (envOf : String → TripEnv) (scraped trips : List String)
    (hne : trips ≠ []) :
    (download_multiple_receipts cfg envOf scraped trips).map Prod.fst =
      trips ∧
    (∀ i (hi : i < trips.length),
      (download_multiple_receipts cfg envOf scraped trips).get? i =
        some (trips.get ⟨i, hi⟩,
          (download_receipt cfg (envOf (trips.get ⟨i, hi⟩))
            (trips.get ⟨i, hi⟩)).1)) ∧
    ∀ t e, (downloadReceiptE cfg (envOf t) t).1 = Except.error e →
      (download_receipt cfg (envOf t) t).1 = none := by
  have hE : trips.isEmpty = false := by
    cases trips with
    | nil => exact absurd rfl hne
    | cons a l => rfl
  refine ⟨?_, ?_, ?_⟩
  · simp only [download_multiple_receipts, hE, Bool.false_eq_true,
      if_false]
    exact map_fst_pair _ trips
  · intro i hi
    simp only [download_multiple_receipts, hE, Bool.false_eq_true,
      if_false]
    rw [List.get?_map, List.get?_eq_get hi]
    rfl
  · intro t e h
    unfold download_receipt
    cases hEq : downloadReceiptE cfg (envOf t) t with
    | mk r evs =>
      rw [hEq] at h
      simp only at h
      cases r with
      | ok v => simp at h
      | error e2 => simp

/-- Witness for C1 at a concrete two-trip batch. -/
theorem batch_isolates_per_trip_failures_witness :
    (download_multiple_receipts cfg0 envOf0 [] ["a", "b"]).map Prod.fst =
      ["a", "b"] :=
  (batch_isolates_per_trip_failures cfg0 envOf0 [] ["a", "b"]
    (by decide)).1

/-- C10: deduplication is applied only to the fetched trip ids: an
explicitly provided (non-empty) trip-id list is processed verbatim, once
per occurrence — duplicates survive into the result sequence, so its id
column need not be duplicate-free — while the fetch path (empty provided
list) iterates the deduplicated scraped ids. -/
theorem provided_list_not_deduplicated (cfg : Config)
    (envOf : String → TripEnv) (scraped trips : List String)
    (hne : trips ≠ []) :
    (download_multiple_receipts cfg envOf scraped trips).map Prod.fst =
      trips ∧
    (∀ a : String,
      ((download_multiple_receipts cfg envOf scraped trips).map
        Prod.fst).count a = trips.count a) ∧
    (¬ trips.Nodup →
      ¬ ((download_multiple_receipts cfg envOf scraped trips).map
        Prod.fst).Nodup) ∧
    download_multiple_receipts cfg envOf scraped [] =
      (dedup scraped).map
        fun t => (t, (download_receipt cfg (envOf t) t).1) := by
  have hE : trips.isEmpty = false := by
    cases trips with
    | nil => exact absurd rfl hne
    | cons a l => rfl
  have hmap :
      (download_multiple_receipts cfg envOf scraped trips).map Prod.fst =
        trips := by
    simp only [download_multiple_receipts, hE, Bool.false_eq_true,
      if_false]
    exact map_fst_pair _ trips
  refine ⟨hmap, fun a => by rw [hmap], fun h hn => h (hmap ▸ hn), ?_⟩
  simp [download_multiple_receipts]

/-- Witness for C10: the provided list `["a", "b", "a"]` yields result
ids `["a", "b", "a"]`, which are not duplicate-free. -/
theorem provided_list_not_deduplicated_witness :
    (download_multiple_receipts cfg0 envOf0 [] ["a", "b", "a"]).map
      Prod.fst = ["a", "b", "a"] ∧
    ¬ ((download_multiple_receipts cfg0 envOf0 [] ["a", "b", "a"]).map
      Prod.fst).Nodup :=
  ⟨(provided_list_not_deduplicated cfg0 envOf0 [] ["a", "b", "a"]
      (by decide)).1,
   (provided_list_not_deduplicated cfg0 envOf0 [] ["a", "b", "a"]
      (by decide)).2.2.1 (by decide)⟩

/-- C2: in every code path of `download_receipt`, whenever the click on
the "Download PDF" control appears in the interaction trace, the
download-event listener was armed strictly earlier in the trace: the
triggering click is never issued without the listener already armed. -/
theorem listener_armed_before_download_click (cfg : Config) (env : TripEnv)
    (trip : String) (n : Nat) (sel : String)
    (h : (download_receipt cfg env trip).2.get? n =
      some (Ev.clickDownload sel)) :
    ∃ m, m < n ∧
      (download_receipt cfg env trip).2.get? m = some Ev.armListener := by
  cases hnav : env.navOk with
  | false =>
    rw [download_receipt_nav_fail cfg env trip hnav] at h ⊢
    exact no_click_vacuous _ (by simp) n sel h
  | true =>
    cases hview : viewPhase env with
    | mk clicked ev1 =>
      cases clicked with
      | false =>
        rw [download_receipt_view_fail cfg env trip ev1 hnav hview] at h ⊢
        exact no_click_vacuous _ (by simp) n sel h
      | true =>
        obtain ⟨e1, he1, hkind⟩ := viewPhase_true_shape env ev1 hview
        subst he1
        have he1n : ∀ s, e1 ≠ Ev.clickDownload s := by
          rcases hkind with ⟨s, rfl⟩ | ⟨t, rfl⟩ <;> simp
        cases hpv : firstVisible env.pdfVisible download_pdf_selectors with
        | none =>
          rw [download_receipt_no_pdf cfg env trip [e1] hnav hview hpv]
            at h ⊢
          refine no_click_vacuous _ ?_ n sel h
          intro e he s
          rcases List.mem_cons.1 he with rfl | he
          · simp
          rcases List.mem_cons.1 he with rfl | he
          · exact he1n s
          simp at he
        | some sel2 =>
          cases hf : env.downloadFires with
          | false =>
            rw [download_receipt_timeout cfg env trip sel2 [e1] hnav hview
              hpv hf] at h ⊢
            simp only [List.cons_append, List.singleton_append] at h ⊢
            exact armed_before_shape _ _ _ _ (by simp) he1n
              (fun e he s => (closeEvs_not_click env e he).1 s) n sel h
          | true =>
            rw [download_receipt_success_shape cfg env trip sel2 [e1] hnav
              hview hpv hf] at h ⊢
            simp only [List.cons_append, List.singleton_append] at h ⊢
            refine armed_before_shape _ _ _ _ (by simp) he1n ?_ n sel h
            intro e he s
            rcases List.mem_cons.1 he with rfl | he
            · simp
            rcases List.mem_cons.1 he with rfl | he
            · simp
            rcases List.mem_cons.1 he with rfl | he
            · simp
            rcases List.mem_cons.1 he with rfl | he
            · simp
            exact (closeEvs_not_click env e he).1 s

/-- Witness for C2: in the concrete successful trace the download click
sits at index 3 and the listener was armed at an earlier index. -/
theorem listener_armed_before_download_click_witness :
    ∃ m, m < 3 ∧ (download_receipt cfg0 envG "t2").2.get? m =
      some Ev.armListener :=
  listener_armed_before_download_click cfg0 envG "t2" 3
    ":text(\"Download PDF\")" (by decide)

/-- C9: when no ranked "Download PDF" selector is visible, even if the
last-resort scan of the page's full text finds download-related text,
`download_receipt` clicks no download control, saves no artifact, and
returns `None`: the text-detection branch can never produce a
downloaded receipt. -/
theorem text_scan_branch_never_downloads (cfg : Config) (env : TripEnv)
    (trip : String)
    (hvis : firstVisible env.pdfVisible download_pdf_selectors = none)
    (hscan : textScanFound env.bodyText = true) :
    (download_receipt cfg env trip).1 = none ∧
    ∀ e ∈ (download_receipt cfg env trip).2,
      (∀ s, e ≠ Ev.clickDownload s) ∧ ∀ p, e ≠ Ev.save p := by
  cases hnav : env.navOk with
  | false =>
    rw [download_receipt_nav_fail cfg env trip hnav]
    simp
  | true =>
    cases hview : viewPhase env with
    | mk clicked ev1 =>
      cases clicked with
      | false =>
        rw [download_receipt_view_fail cfg env trip ev1 hnav hview]
        simp
      | true =>
        obtain ⟨e1, he1, hkind⟩ := viewPhase_true_shape env ev1 hview
        subst he1
        rw [download_receipt_no_pdf cfg env trip [e1] hnav hview hvis]
        refine ⟨rfl, ?_⟩
        intro e he
        rcases List.mem_cons.1 he with rfl | he
        · simp
        rcases List.mem_cons.1 he with rfl | he
        · rcases hkind with ⟨s, rfl⟩ | ⟨t, rfl⟩ <;> simp
        simp at he

/-- Witness for C9 on a page whose body text mentions "Download PDF"
while no ranked selector is visible. -/
theorem text_scan_branch_never_downloads_witness :
    (download_receipt cfg0 env9 "t9").1 = none ∧
    ∀ e ∈ (download_receipt cfg0 env9 "t9").2,
      (∀ s, e ≠ Ev.clickDownload s) ∧ ∀ p, e ≠ Ev.save p :=
  text_scan_branch_never_downloads cfg0 env9 "t9" (by decide) (by decide)

/-- C4 counterexample: for a successful download with extracted amount
`"24.06"`, date `"2025-03-06"`, output directory `"out"` and trip id
`"abc"`, the saved path is `out/2025-03-06-24.06USD-abc.pdf` — date
first, then amount with a `USD` suffix — not the claimed
`<output_dir>/<amount>-<date>-<tripId>.pdf`. -/
theorem filename_order_counterexample :
    (download_receipt cfg0 envG "abc").1 =
      some "out/2025-03-06-24.06USD-abc.pdf" ∧
    (download_receipt cfg0 envG "abc").1 ≠
      some "out/24.06-2025-03-06-abc.pdf" := by decide

/-- C4 (amended): for every successfully downloaded receipt the saved
artifact's path is `<output_dir>/<date>-<amount>USD-<tripId>.pdf` — the
filename starts with the formatted date, followed by the extracted
amount with a `USD` suffix, followed by the trip id, with a `.pdf`
suffix — and the output directory is ensured (created if absent) before
the file is saved. -/
theorem filename_is_date_amount_trip (cfg : Config) (env : TripEnv)
    (trip : String) (sel : String) (ev1 : List Ev)
    (hnav : env.navOk = true)
    (hview : viewPhase env = (true, ev1))
    (hpv : firstVisible env.pdfVisible download_pdf_selectors = some sel)
    (hf : env.downloadFires = true) :
    (download_receipt cfg env trip).1 =
      some (cfg.downloadDir ++ "/" ++
        (extractDateStr env ++ "-" ++ extract_cost env.costPage ++
          "USD-" ++ trip ++ ".pdf")) ∧
    ∃ pre post, (download_receipt cfg env trip).2 =
      pre ++ Ev.mkdir cfg.downloadDir ::
        Ev.save (cfg.downloadDir ++ "/" ++
          mkFilename (extractDateStr env) (extract_cost env.costPage)
            trip) :: post := by
  rw [download_receipt_success_shape cfg env trip sel ev1 hnav hview
    hpv hf]
  constructor
  · simp only [mkFilename, String.append_assoc]
  · exact ⟨Ev.navigate (tripUrl trip) :: ev1 ++
      [Ev.armListener, Ev.clickDownload sel, Ev.extractCostEv,
       Ev.extractDateEv], closeEvs env, by simp⟩

/-- Witness for C4 (amended) at the concrete successful environment. -/
theorem filename_is_date_amount_trip_witness :
    (download_receipt cfg0 envG "w4").1 =
      some (cfg0.downloadDir ++ "/" ++
        (extractDateStr envG ++ "-" ++ extract_cost envG.costPage ++
          "USD-" ++ "w4" ++ ".pdf")) ∧
    ∃ pre post, (download_receipt cfg0 envG "w4").2 =
      pre ++ Ev.mkdir cfg0.downloadDir ::
        Ev.save (cfg0.downloadDir ++ "/" ++
          mkFilename (extractDateStr envG) (extract_cost envG.costPage)
            "w4") :: post :=
  filename_is_date_amount_trip cfg0 envG "w4"
    ":text(\"Download PDF\")" [Ev.clickView
      "button[data-tracking-name=\"view-receipt-link\"]"]
    (by decide) (by decide) (by decide) (by decide)

/-- C5: at a concrete trip on which every step succeeds, the recorded
interaction trace clicks the "Download PDF" control (index 3) strictly
before the amount is extracted (index 4) and the date is extracted
(index 5): contrary to the claim (and to the source's own comment at
line 367, "Extract the cost from the page before clicking Download"),
extraction is issued after the triggering click, once the download
event has already arrived. -/
theorem click_precedes_extraction_at_concrete_env :
    (download_receipt cfg0 envG "t5").2.get? 3 =
      some (Ev.clickDownload ":text(\"Download PDF\")") ∧
    (download_receipt cfg0 envG "t5").2.get? 4 = some Ev.extractCostEv ∧
    (download_receipt cfg0 envG "t5").2.get? 5 = some Ev.extractDateEv := by
  decide

/-- C6: `extract_cost` never raises — any raise inside its body is
caught and mapped to the sentinel `"unknown"` — and when the sentinel is
produced the download still proceeds: the trip returns a saved path
whose filename embeds `"unknown"` instead of aborting. -/
theorem sentinel_flows_to_filename :
    (∀ (p : CostPage) (e : String),
      extractCostE p = Except.error e → extract_cost p = "unknown") ∧
    (∀ (cfg : Config) (env : TripEnv) (trip sel : String) (ev1 : List Ev),
      env.navOk = true →
      viewPhase env = (true, ev1) →
      firstVisible env.pdfVisible download_pdf_selectors = some sel →
      env.downloadFires = true →
      extract_cost env.costPage = "unknown" →
      (download_receipt cfg env trip).1 =
        some (cfg.downloadDir ++ "/" ++
          mkFilename (extractDateStr env) "unknown" trip)) ∧
    ∀ dateS trip : String, ∃ pre post,
      mkFilename dateS "unknown" trip = pre ++ "unknown" ++ post := by
  refine ⟨?_, ?_, ?_⟩
  · intro p e h
    unfold extract_cost
    rw [h]
  · intro cfg env trip sel ev1 hnav hview hpv hf hcost
    rw [download_receipt_success_shape cfg env trip sel ev1 hnav hview
      hpv hf]
    simp [hcost]
  · intro dateS trip
    exact ⟨dateS ++ "-", "USD-" ++ trip ++ ".pdf",
      by simp only [mkFilename, String.append_assoc]⟩

/-- Witness for C6: a raising cost read yields the sentinel, and a trip
whose page shows no readable amount still saves a file with `"unknown"`
in its name. -/
theorem sentinel_flows_to_filename_witness :
    extract_cost ⟨[Except.error "boom"], false, false, none⟩ =
      "unknown" ∧
    (download_receipt cfg0 envU "t6").1 =
      some (cfg0.downloadDir ++ "/" ++
        mkFilename (extractDateStr envU) "unknown" "t6") :=
  ⟨sentinel_flows_to_filename.1 ⟨[Except.error "boom"], false, false,
      none⟩ "boom" (by rfl),
   sentinel_flows_to_filename.2.1 cfg0 envU "t6"
     ":text(\"Download PDF\")" [Ev.clickView
       "button[data-tracking-name=\"view-receipt-link\"]"]
     (by decide) (by decide) (by decide) (by decide) (by decide)⟩

end UberRx
